import Mathlib

/-!
Verification development for `generate_calendar.py` (Zelez20/sports-calendar).

The Python source is shallowly embedded in Lean 4:
* Python `str` values are modeled as `String` (and, for character-level
  algorithms, as `List Char` via `String.data`);
* `datetime.date` and `datetime.datetime` are modeled by the structures
  `Date` and `PyDateTime` below, with Python's calendar arithmetic embedded
  through days-from-civil / civil-from-days conversions;
* fallible operations (ISO parsing) return `Option`;
* the nondeterministic inputs of the program (the fetched page, the wall
  clock, `uuid.uuid4()`, the system timezone) are passed as explicit
  parameters to the embedded functions.
-/

/-! ### Characters and Python `str.replace` -/

/-- Python `s.replace(pat, rep)` specialized to a one-character pattern
`a` (every pattern used by the source — `"\\"`, `"\n"`, `","`, `";"`,
`"Z"` — is a single character): each occurrence of `a` is replaced by
`rep`, left to right, and replacement text is not rescanned. -/
def replaceChar (a : Char) (rep : List Char) : List Char → List Char
  | [] => []
  | c :: rest => (if c = a then rep else [c]) ++ replaceChar a rep rest

/-- Embedding of `ics_escape` (source lines 29-35):
`s.replace("\\", "\\\\").replace("\n", "\\n").replace(",", "\\,").replace(";", "\\;")`,
on strings modeled as character lists. -/
def ics_escape (l : List Char) : List Char :=
  replaceChar ';' ['\\', ';']
    (replaceChar ',' ['\\', ',']
      (replaceChar '\n' ['\\', 'n']
        (replaceChar '\\' ['\\', '\\'] l)))

/-- Embedding of `ics_escape` lifted back to `String`, as used when assembling VEVENT lines. -/
def icsEscapeS (s : String) : String :=
  String.mk (ics_escape s.data)

/-- The per-character substitution that the spec's escaping rule describes:
backslash to `\\`, newline to `\n`, comma to `\,`, semicolon to `\;`,
all other characters unchanged. -/
def escChar (c : Char) : List Char :=
  if c = '\\' then ['\\', '\\']
  else if c = '\n' then ['\\', 'n']
  else if c = ',' then ['\\', ',']
  else if c = ';' then ['\\', ';']
  else [c]

/-- Modelled from the spec: un-escaping with "the same rules", i.e. a single
left-to-right pass mapping `\\`, `\n`, `\,`, `\;` back to backslash, newline,
comma, semicolon.  (The source never decodes its own output, so this inverse
exists only in the spec.)  An unrecognized escape keeps the backslash. -/
def ics_unescape : List Char → List Char
  | [] => []
  | ['\\'] => ['\\']
  | '\\' :: d :: rest2 =>
    if d = '\\' then '\\' :: ics_unescape rest2
    else if d = 'n' then '\n' :: ics_unescape rest2
    else if d = ',' then ',' :: ics_unescape rest2
    else if d = ';' then ';' :: ics_unescape rest2
    else '\\' :: ics_unescape (d :: rest2)
  | c :: rest => c :: ics_unescape rest

/-! ### Dates and datetimes

`datetime.date` / `datetime.datetime` are modeled by plain record types.
Python's timedelta arithmetic and timestamp conversions are proleptic
Gregorian; they are embedded via the standard civil-calendar conversions. -/

/-- Embedding of `datetime.date`. -/
structure Date where
  year : Nat
  month : Nat
  day : Nat
deriving DecidableEq

/-- Gregorian leap-year rule. -/
def isLeap (y : Nat) : Bool :=
  y % 4 = 0 && (y % 100 != 0 || y % 400 = 0)

/-- Length of month `m` in year `y`. -/
def daysInMonth (y m : Nat) : Nat :=
  if m = 2 then (if isLeap y then 29 else 28)
  else if m = 4 ∨ m = 6 ∨ m = 9 ∨ m = 11 then 30
  else 31

/-- The representable dates: what `datetime.date` guarantees by construction. -/
def ValidDate (d : Date) : Prop :=
  1 ≤ d.month ∧ d.month ≤ 12 ∧ 1 ≤ d.day ∧ d.day ≤ daysInMonth d.year d.month

instance (d : Date) : Decidable (ValidDate d) := by
  unfold ValidDate; infer_instance

/-- Embedding of `d + timedelta(days=1)` on a valid date: the successor calendar day. -/
def nextDay (dt : Date) : Date :=
  if dt.day < daysInMonth dt.year dt.month then ⟨dt.year, dt.month, dt.day + 1⟩
  else if dt.month < 12 then ⟨dt.year, dt.month + 1, 1⟩
  else ⟨dt.year + 1, 1, 1⟩

/-- Embedding of `d - timedelta(days=1)` on a valid date: the predecessor calendar day. -/
def prevDay (dt : Date) : Date :=
  if 1 < dt.day then ⟨dt.year, dt.month, dt.day - 1⟩
  else if 1 < dt.month then ⟨dt.year, dt.month - 1, daysInMonth dt.year (dt.month - 1)⟩
  else ⟨dt.year - 1, 12, 31⟩

/-- Days since 1970-01-01 of a civil date (proleptic Gregorian; the standard
days-from-civil algorithm, matching Python's `date.toordinal` up to the fixed
epoch shift). -/
def daysFromCivil (y0 m d : Int) : Int :=
  let y : Int := if m ≤ 2 then y0 - 1 else y0
  let era : Int := y / 400
  let yoe : Int := y - era * 400
  let mp : Int := (m + 9) % 12
  let doy : Int := (153 * mp + 2) / 5 + d - 1
  let doe : Int := yoe * 365 + yoe / 4 - yoe / 100 + doy
  era * 146097 + doe - 719468

/-- Civil date (year, month, day) of a count of days since 1970-01-01
(inverse of `daysFromCivil`; the standard civil-from-days algorithm). -/
def civilFromDays (z0 : Int) : Int × Int × Int :=
  let z : Int := z0 + 719468
  let era : Int := z / 146097
  let doe : Int := z - era * 146097
  let yoe : Int := (doe - doe / 1460 + doe / 36524 - doe / 146096) / 365
  let y : Int := yoe + era * 400
  let doy : Int := doe - (365 * yoe + yoe / 4 - yoe / 100)
  let mp : Int := (5 * doy + 2) / 153
  let d : Int := doy - (153 * mp + 2) / 5 + 1
  let m : Int := if mp < 10 then mp + 3 else mp - 9
  (if m ≤ 2 then y + 1 else y, m, d)

/-- Embedding of `datetime.datetime`: civil fields plus an optional `tzinfo`.  A `tzinfo`
of `none` is a naive datetime; `some off` models an attached fixed UTC offset
of `off` seconds (the only kind of tzinfo the pipeline ever parses). -/
structure PyDateTime where
  year : Nat
  month : Nat
  day : Nat
  hour : Nat
  minute : Nat
  second : Nat
  tzinfo : Option Int := none
deriving DecidableEq

/-- Seconds since 1970-01-01T00:00:00 of the naive (wall-clock) part of a
datetime.  Python's comparison and subtraction of two naive datetimes is
chronological comparison of exactly this quantity. -/
def secsNaive (dt : PyDateTime) : Int :=
  86400 * daysFromCivil dt.year dt.month dt.day
    + 3600 * (dt.hour : Int) + 60 * (dt.minute : Int) + (dt.second : Int)

/-- The naive datetime whose `secsNaive` is `t` (no tzinfo attached). -/
def datetimeOfSecs (t : Int) : PyDateTime :=
  let c := civilFromDays (t / 86400)
  let r : Nat := (t % 86400).toNat
  ⟨c.1.toNat, c.2.1.toNat, c.2.2.toNat, r / 3600, r % 3600 / 60, r % 60, none⟩

/-- Embedding of `start_local + timedelta(hours=h)` on a naive datetime (source line 94). -/
def addHours (dt : PyDateTime) (h : Nat) : PyDateTime :=
  datetimeOfSecs (secsNaive dt + 3600 * (h : Int))

/-! ### ICS formatting helpers (source lines 37-45)

`dtstamp_utc()` reads the wall clock and `uuid.uuid4()` draws randomness, so
both are passed in as explicit parameters wherever the source calls them. -/

/-- Two-digit zero padding, as produced by `strftime` fields `%m %d %H %M %S`. -/
def pad2 (n : Nat) : String :=
  if n < 10 then "0" ++ toString n else toString n

/-- Four-digit zero padding, as produced by the `strftime` field `%Y`. -/
def pad4 (n : Nat) : String :=
  if n < 10 then "000" ++ toString n
  else if n < 100 then "00" ++ toString n
  else if n < 1000 then "0" ++ toString n
  else toString n

/-- Embedding of `fmt_date` (source lines 40-41): `d.strftime("%Y%m%d")`. -/
def fmt_date (d : Date) : String :=
  pad4 d.year ++ pad2 d.month ++ pad2 d.day

/-- Embedding of `fmt_dt_local` (source lines 43-45): `d.strftime("%Y%m%dT%H%M%S")`. -/
def fmt_dt_local (d : PyDateTime) : String :=
  pad4 d.year ++ pad2 d.month ++ pad2 d.day ++ "T"
    ++ pad2 d.hour ++ pad2 d.minute ++ pad2 d.second

/-! ### The Emitter: `vevent_all_day` and `vevent_timed` (source lines 47-120)

`u` models the `uuid.uuid4()` draw and `dtstamp` the `dtstamp_utc()` call of
this invocation.  Events are built as the list of lines the source
accumulates, then joined with newlines. -/

/-- The lines of `vevent_all_day` (source lines 47-82). -/
def vevent_all_day_lines (u dtstamp summary : String)
    (start_inclusive end_inclusive : Date)
    (location description categories : String) : List String :=
  let uid : String := u ++ "@sports-calendar"
  let dtend_exclusive : Date := nextDay end_inclusive
  ["BEGIN:VEVENT",
   "UID:" ++ uid,
   "DTSTAMP:" ++ dtstamp,
   "SUMMARY:" ++ icsEscapeS summary,
   "DTSTART;VALUE=DATE:" ++ fmt_date start_inclusive,
   "DTEND;VALUE=DATE:" ++ fmt_date dtend_exclusive]
  ++ (if location ≠ "" then ["LOCATION:" ++ icsEscapeS location] else [])
  ++ (if categories ≠ "" then ["CATEGORIES:" ++ icsEscapeS categories] else [])
  ++ (if description ≠ "" then ["DESCRIPTION:" ++ icsEscapeS description] else [])
  ++ ["BEGIN:VALARM", "ACTION:DISPLAY", "DESCRIPTION:Reminder",
      "TRIGGER:-PT1H", "END:VALARM", "END:VEVENT"]

/-- Embedding of `vevent_all_day`: the joined event block. -/
def vevent_all_day (u dtstamp summary : String)
    (start_inclusive end_inclusive : Date)
    (location description categories : String) : String :=
  "\n".intercalate
    (vevent_all_day_lines u dtstamp summary start_inclusive end_inclusive
      location description categories)

/-- The lines of `vevent_timed` (source lines 84-120). -/
def vevent_timed_lines (u dtstamp summary : String) (start_local : PyDateTime)
    (duration_hours : Nat) (tzid location description categories : String) :
    List String :=
  let uid : String := u ++ "@sports-calendar"
  let end_local : PyDateTime := addHours start_local duration_hours
  ["BEGIN:VEVENT",
   "UID:" ++ uid,
   "DTSTAMP:" ++ dtstamp,
   "SUMMARY:" ++ icsEscapeS summary,
   "DTSTART;TZID=" ++ tzid ++ ":" ++ fmt_dt_local start_local,
   "DTEND;TZID=" ++ tzid ++ ":" ++ fmt_dt_local end_local]
  ++ (if location ≠ "" then ["LOCATION:" ++ icsEscapeS location] else [])
  ++ (if categories ≠ "" then ["CATEGORIES:" ++ icsEscapeS categories] else [])
  ++ (if description ≠ "" then ["DESCRIPTION:" ++ icsEscapeS description] else [])
  ++ ["BEGIN:VALARM", "ACTION:DISPLAY", "DESCRIPTION:Reminder",
      "TRIGGER:-PT1H", "END:VALARM", "END:VEVENT"]

/-- Embedding of `vevent_timed`: the joined event block. -/
def vevent_timed (u dtstamp summary : String) (start_local : PyDateTime)
    (duration_hours : Nat) (tzid location description categories : String) :
    String :=
  "\n".intercalate
    (vevent_timed_lines u dtstamp summary start_local duration_hours tzid
      location description categories)

/-! ### ISO-8601 parsing

Models the fragment of `datetime.fromisoformat` (Python 3.11) exercised by
the pipeline: extended-format `YYYY-MM-DD`, optionally followed by
`THH:MM[:SS]` (`T` or space separator) and an optional `+HH:MM`/`-HH:MM`
offset.  Fractional seconds and the basic (separator-less) format are not
modeled; the source only ever meets ESPN timestamps of the modeled shape.
A 4-digit year is mandatory, as in CPython. -/

/-- Read exactly two decimal digits. -/
def read2 : List Char → Option (Nat × List Char)
  | a :: b :: rest =>
    if a.isDigit && b.isDigit then
      some (10 * (a.toNat - 48) + (b.toNat - 48), rest)
    else none
  | _ => none

/-- Read exactly four decimal digits. -/
def read4 (l : List Char) : Option (Nat × List Char) :=
  match read2 l with
  | some (x, r) =>
    match read2 r with
    | some (y, r2) => some (100 * x + y, r2)
    | none => none
  | none => none

/-- Consume one expected character. -/
def expect (c : Char) : List Char → Option (List Char)
  | d :: rest => if d = c then some rest else none
  | [] => none

/-- Optional `:SS` component (seconds default to 0 when absent). -/
def readSecondsOpt : List Char → Option (Nat × List Char)
  | ':' :: rest => read2 rest
  | l => some (0, l)

/-- Optional trailing `±HH:MM` UTC offset, in seconds. -/
def readOffset : List Char → Option (Option Int)
  | [] => some none
  | c :: rest =>
    if c = '+' ∨ c = '-' then
      match read2 rest with
      | some (oh, r1) =>
        match expect ':' r1 with
        | some r2 =>
          match read2 r2 with
          | some (om, r3) =>
            if r3 = [] ∧ oh < 24 ∧ om < 60 then
              some (some ((if c = '-' then (-1 : Int) else 1)
                * (3600 * (oh : Int) + 60 * (om : Int))))
            else none
          | none => none
        | none => none
      | none => none
    else none

/-- Embedding of `datetime.fromisoformat` on the modeled fragment; `none` models a raised
`ValueError`. -/
def parseIso (l : List Char) : Option PyDateTime := do
  let (y, r1) ← read4 l
  let r2 ← expect '-' r1
  let (mo, r3) ← read2 r2
  let r4 ← expect '-' r3
  let (d, r5) ← read2 r4
  if ¬ (1 ≤ mo ∧ mo ≤ 12 ∧ 1 ≤ d ∧ d ≤ daysInMonth y mo) then none
  else
    match r5 with
    | [] => some ⟨y, mo, d, 0, 0, 0, none⟩
    | sep :: r6 =>
      if sep = 'T' ∨ sep = ' ' then do
        let (h, r7) ← read2 r6
        let r8 ← expect ':' r7
        let (mi, r9) ← read2 r8
        let (s, r10) ← readSecondsOpt r9
        if h ≤ 23 ∧ mi ≤ 59 ∧ s ≤ 59 then do
          let off ← readOffset r10
          some ⟨y, mo, d, h, mi, s, off⟩
        else none
      else none

/-- Embedding of `dt_str.replace("Z", "+00:00")` (source line 293). -/
def pyReplaceZ (l : List Char) : List Char :=
  replaceChar 'Z' ("+00:00".data) l

/-! ### America/New_York (source lines 302-308)

`ZoneInfo("America/New_York")` is modeled from the tz database rules for
the modern era (post-2007 US DST): daylight saving runs from the second
Sunday of March 07:00 UTC to the first Sunday of November 06:00 UTC;
offset UTC-4 inside that window, UTC-5 outside. -/

/-- Day of week of a day count since the epoch, with Sunday = 0
(1970-01-01 was a Thursday = 4). -/
def dowSunday0 (z : Int) : Int := (z + 4) % 7

/-- Day of month of the first Sunday of month `m` in year `y`. -/
def firstSundayOfMonth (y m : Int) : Int :=
  1 + (7 - dowSunday0 (daysFromCivil y m 1)) % 7

/-- UTC instant at which US DST starts in year `y` (second Sunday of March,
02:00 EST = 07:00 UTC). -/
def dstStartUtc (y : Int) : Int :=
  86400 * daysFromCivil y 3 (firstSundayOfMonth y 3 + 7) + 7 * 3600

/-- UTC instant at which US DST ends in year `y` (first Sunday of November,
02:00 EDT = 06:00 UTC). -/
def dstEndUtc (y : Int) : Int :=
  86400 * daysFromCivil y 11 (firstSundayOfMonth y 11) + 6 * 3600

/-- UTC offset (in seconds) of America/New_York at UTC instant `t`. -/
def nyOffsetAt (t : Int) : Int :=
  let y := (civilFromDays (t / 86400)).1
  if dstStartUtc y ≤ t ∧ t < dstEndUtc y then -4 * 3600 else -5 * 3600

/-- Embedding of `dt_utc.astimezone(ZoneInfo("America/New_York")).replace(tzinfo=None)`
(source lines 302-305): the aware input is converted to the Eastern wall
clock and the tzinfo is immediately stripped.  Python interprets a naive
input as system-local time; the system timezone's UTC offset is the
`sysOff` parameter. -/
def toNaiveEastern (sysOff : Int) (dt : PyDateTime) : PyDateTime :=
  let utc : Int :=
    match dt.tzinfo with
    | some off => secsNaive dt - off
    | none => secsNaive dt - sysOff
  datetimeOfSecs (utc + nyOffsetAt utc)

/-! ### The Extractor/Normalizer loop of `fetch_ufc_events_from_espn`
(source lines 251-333)

The network fetch, the `__NEXT_DATA__` regex and `json.loads` are upstream
of the logic under verification; the walk order of `_walk` over the decoded
JSON is modeled as the input list of candidate dict nodes.  A `Node` holds
the dict fields the loop reads; a missing key is `none`.  Location values
may be strings or dicts (`LocVal`); other JSON types for these fields are
not modeled. -/

/-- A JSON value found under `location`/`venue`: a string, or a dict whose
`fullName`/`name` keys the code reads.  A dict is modeled as truthy. -/
inductive LocVal where
  | str (s : String)
  | dict (fullName nm : Option String)
deriving DecidableEq

/-- A candidate dict node yielded by `_walk`. -/
structure Node where
  name : Option String := none
  shortName : Option String := none
  description : Option String := none
  date : Option String := none
  startDate : Option String := none
  startTime : Option String := none
  location : Option LocVal := none
  venue : Option LocVal := none
deriving DecidableEq

/-- Python `a or b` for optional strings: `None` and `""` are falsy and the
second operand is returned as-is. -/
def pyOrOpt (a b : Option String) : Option String :=
  match a with
  | some s => if s ≠ "" then some s else b
  | none => b

/-- Python truthiness of a `LocVal` (the dicts met here are non-empty). -/
def locTruthy : LocVal → Bool
  | .str s => s ≠ ""
  | .dict _ _ => true

/-- Python `a or b` for optional location values. -/
def pyOrLoc (a b : Option LocVal) : Option LocVal :=
  match a with
  | some v => if locTruthy v then some v else b
  | none => b

/-- Lines 315-318: a dict-valued location is reduced to
`loc.get("fullName") or loc.get("name") or ""`; a non-string result
becomes `""`. -/
def normalizeLoc : LocVal → String
  | .str s => s
  | .dict fullName nm => (pyOrOpt fullName (pyOrOpt nm (some ""))).getD ""

/-- Line 279: `node.get("name") or node.get("shortName") or node.get("description")`. -/
def nameOf (node : Node) : Option String :=
  pyOrOpt node.name (pyOrOpt node.shortName node.description)

/-- Line 280: `node.get("date") or node.get("startDate") or node.get("startTime")`. -/
def dtStrOf (node : Node) : Option String :=
  pyOrOpt node.date (pyOrOpt node.startDate node.startTime)

/-- Lines 281, 314-318: the normalized location string of a node. -/
def nodeLoc (node : Node) : String :=
  normalizeLoc ((pyOrLoc node.location node.venue).getD (LocVal.str ""))

/-- Embedding of `UFCEvent` (source lines 234-238): note `start_et` is stored as produced
by `toNaiveEastern`, i.e. a naive Eastern wall-clock datetime. -/
structure UFCEvent where
  name : String
  start_et : PyDateTime
  location : String
deriving DecidableEq

/-- Does the list start with `pat`? -/
def listStartsWith : List Char → List Char → Bool
  | [], _ => true
  | _ :: _, [] => false
  | a :: pr, b :: lr => a == b && listStartsWith pr lr

/-- Python's substring test `pat in s` (contiguous occurrence). -/
def containsSub (pat : List Char) : List Char → Bool
  | [] => listStartsWith pat []
  | c :: rest => listStartsWith pat (c :: rest) || containsSub pat rest

/-- Lines 279-308 for one node: the admission filter (`"UFC" in name`), ISO
parsing of the date text, and conversion to the naive Eastern wall clock —
everything before the staleness filter. -/
def nodeNameDt (sysOff : Int) (node : Node) : Option (String × PyDateTime) :=
  match nameOf node, dtStrOf node with
  | some nm, some dt_str =>
    if containsSub ("UFC".data) nm.data then
      match parseIso (pyReplaceZ dt_str.data) with
      | some dt_utc => some (nm, toNaiveEastern sysOff dt_utc)
      | none => none
    else none
  | _, _ => none

/-- Lines 273-320 for one node: `nodeNameDt` followed by the staleness
filter `dt_et < now - timedelta(days=7)` and location normalization;
`some ev` is the event appended to `found` for this node. -/
def processNode (now : PyDateTime) (sysOff : Int) (node : Node) : Option UFCEvent :=
  match nodeNameDt sysOff node with
  | none => none
  | some (nm, dt_et) =>
    if secsNaive dt_et < secsNaive now - 7 * 86400 then none
    else some ⟨nm, dt_et, nodeLoc node⟩

/-- The `for node in _walk(data)` loop (lines 273-323): candidates are
accumulated into `found` in walk order, stopping once
`len(found) >= max_events` (checked after each append). -/
def collectFound (now : PyDateTime) (sysOff : Int) (maxEvents : Nat) :
    List Node → List UFCEvent → List UFCEvent
  | [], found => found
  | node :: rest, found =>
    match processNode now sysOff node with
    | none => collectFound now sysOff maxEvents rest found
    | some ev =>
      let found2 := found ++ [ev]
      if maxEvents ≤ found2.length then found2
      else collectFound now sysOff maxEvents rest found2

/-- The whitespace removed by Python's default `str.strip()` (ASCII part). -/
def isPySpace (c : Char) : Bool :=
  c == ' ' || c == '\t' || c == '\n' || c == '\r' || c == '\x0B' || c == '\x0C'

/-- Python `s.strip()`. -/
def pyStrip (s : String) : String :=
  String.mk (((s.data.dropWhile isPySpace).reverse.dropWhile isPySpace).reverse)

/-- Line 328: the deduplication identity key `(ev.name.strip(), ev.start_et)`. -/
def eventKey (ev : UFCEvent) : String × PyDateTime :=
  (pyStrip ev.name, ev.start_et)

/-- Embedding of `uniq[key] = ev` on a Python dict modeled as an association list with
pairwise-distinct keys: an existing key keeps its position and gets the new
value, a new key is appended at the end (insertion order). -/
def dictUpdate {K V : Type} [DecidableEq K] : List (K × V) → K → V → List (K × V)
  | [], k, v => [(k, v)]
  | p :: rest, k, v => if p.1 = k then (k, v) :: rest else p :: dictUpdate rest k v

/-- Lines 326-329: `uniq = {}` then `uniq[(ev.name.strip(), ev.start_et)] = ev`
for each found event. -/
def buildDict (found : List UFCEvent) : List ((String × PyDateTime) × UFCEvent) :=
  found.foldl (fun m ev => dictUpdate m (eventKey ev) ev) []

/-- The sort key of line 332: comparison of `start_et`. -/
def erLE (a b : UFCEvent) : Prop :=
  secsNaive a.start_et ≤ secsNaive b.start_et

instance : DecidableRel erLE :=
  fun a b => inferInstanceAs (Decidable (secsNaive a.start_et ≤ secsNaive b.start_et))

/-- Lines 325-333: deduplicate by `(name.strip(), start_et)` (last seen wins)
and sort ascending by `start_et` (Python's `sorted` is a stable sort; so is
insertion sort). -/
def dedup_and_sort (found : List UFCEvent) : List UFCEvent :=
  List.insertionSort erLE ((buildDict found).map Prod.snd)

/-- Embedding of `fetch_ufc_events_from_espn` (lines 251-333) from the decoded candidate
nodes on: `now` models `datetime.now()` and `sysOff` the system timezone's
UTC offset in seconds. -/
def fetch_ufc_events_from_espn (now : PyDateTime) (sysOff : Int)
    (maxEvents : Nat) (nodes : List Node) : List UFCEvent :=
  dedup_and_sort (collectFound now sysOff maxEvents nodes [])

/-! ### The Fetcher's single HTTP call (source lines 259-260) -/

/-- The arguments of one `requests.get` call. -/
structure HttpGetCall where
  url : String
  timeoutSeconds : Option Nat
  extraHeaders : List (String × String)
deriving DecidableEq

/-- Line 260: `requests.get(url, timeout=30)` — a 30-second timeout and no
`headers=` argument, so the caller supplies no headers of its own and the
HTTP library's defaults (including its default `python-requests` identity)
apply. -/
def espnScheduleRequest : HttpGetCall :=
  ⟨"https://www.espn.com/mma/schedule/_/league/ufc", some 30, []⟩

/-! ### Static 2026 calendars (source lines 127-227) -/

/-- Embedding of `date.fromisoformat` on the static literals (all of which parse; the
fallback date is never reached). -/
def dateFromIso (s : String) : Date :=
  match parseIso s.data with
  | some dt => ⟨dt.year, dt.month, dt.day⟩
  | none => ⟨1970, 1, 1⟩

/-- The arguments of one `vevent_all_day` call. -/
structure AllDayArgs where
  summary : String
  start_inclusive : Date
  end_inclusive : Date
  location : String
  description : String
  categories : String
deriving DecidableEq

/-- The F1 2026 table (source lines 129-154): (name, start, end, location). -/
def f1_2026 : List (String × String × String × String) :=
  [("Australian Grand Prix", "2026-03-06", "2026-03-08", "Melbourne, Australia"),
   ("Chinese Grand Prix", "2026-03-13", "2026-03-15", "Shanghai, China"),
   ("Japanese Grand Prix", "2026-03-27", "2026-03-29", "Suzuka, Japan"),
   ("Bahrain Grand Prix", "2026-04-10", "2026-04-12", "Sakhir, Bahrain"),
   ("Saudi Arabian Grand Prix", "2026-04-17", "2026-04-19", "Jeddah, Saudi Arabia"),
   ("Miami Grand Prix", "2026-05-01", "2026-05-03", "Miami, USA"),
   ("Canadian Grand Prix", "2026-05-22", "2026-05-24", "Montreal, Canada"),
   ("Monaco Grand Prix", "2026-06-05", "2026-06-07", "Monaco"),
   ("Barcelona-Catalunya Grand Prix", "2026-06-12", "2026-06-14", "Barcelona, Spain"),
   ("Austrian Grand Prix", "2026-06-26", "2026-06-28", "Spielberg, Austria"),
   ("British Grand Prix", "2026-07-03", "2026-07-05", "Silverstone, Great Britain"),
   ("Belgian Grand Prix", "2026-07-17", "2026-07-19", "Spa-Francorchamps, Belgium"),
   ("Hungarian Grand Prix", "2026-07-24", "2026-07-26", "Budapest, Hungary"),
   ("Dutch Grand Prix", "2026-08-21", "2026-08-23", "Zandvoort, Netherlands"),
   ("Italian Grand Prix", "2026-09-04", "2026-09-06", "Monza, Italy"),
   ("Spanish Grand Prix (Madrid)", "2026-09-11", "2026-09-13", "Madrid, Spain"),
   ("Azerbaijan Grand Prix", "2026-09-24", "2026-09-26", "Baku, Azerbaijan"),
   ("Singapore Grand Prix", "2026-10-09", "2026-10-11", "Singapore"),
   ("United States Grand Prix", "2026-10-23", "2026-10-25", "Austin, USA"),
   ("Mexico City Grand Prix", "2026-10-30", "2026-11-01", "Mexico City, Mexico"),
   ("São Paulo Grand Prix", "2026-11-06", "2026-11-08", "São Paulo, Brazil"),
   ("Las Vegas Grand Prix", "2026-11-19", "2026-11-21", "Las Vegas, USA"),
   ("Qatar Grand Prix", "2026-11-27", "2026-11-29", "Lusail, Qatar"),
   ("Abu Dhabi Grand Prix", "2026-12-04", "2026-12-06", "Abu Dhabi, UAE")]

/-- The WRC 2026 table (source lines 171-185). -/
def wrc_2026 : List (String × String × String × String) :=
  [("Rallye Monte-Carlo", "2026-01-22", "2026-01-25", "Monaco"),
   ("Rally Sweden", "2026-02-12", "2026-02-15", "Sweden"),
   ("Safari Rally Kenya", "2026-03-12", "2026-03-15", "Kenya"),
   ("Croatia Rally", "2026-04-09", "2026-04-12", "Croatia"),
   ("Rally Islas Canarias", "2026-04-23", "2026-04-26", "Spain"),
   ("Vodafone Rally de Portugal", "2026-05-07", "2026-05-10", "Portugal"),
   ("FORUM8 Rally Japan", "2026-05-28", "2026-05-31", "Japan"),
   ("EKO Acropolis Rally Greece", "2026-06-25", "2026-06-28", "Greece"),
   ("Delfi Rally Estonia", "2026-07-16", "2026-07-19", "Estonia"),
   ("Secto Rally Finland", "2026-07-30", "2026-08-02", "Finland"),
   ("ueno Rally del Paraguay", "2026-08-27", "2026-08-30", "Paraguay"),
   ("Rally Chile Bio Bío", "2026-09-10", "2026-09-13", "Chile"),
   ("Rally Italia Sardegna", "2026-10-01", "2026-10-04", "Italy"),
   ("Rally Saudi Arabia", "2026-11-11", "2026-11-14", "Saudi Arabia")]

/-- The GTWC Europe 2026 table (source lines 203-214). -/
def gtwc_2026 : List (String × String × String × String) :=
  [("Circuit Paul Ricard (Round 1)", "2026-04-10", "2026-04-12", "Le Castellet, France"),
   ("Brands Hatch (Round 2)", "2026-05-02", "2026-05-03", "Kent, Great Britain"),
   ("Monza (Round 3)", "2026-05-30", "2026-05-31", "Monza, Italy"),
   ("CrowdStrike 24 Hours of Spa (Round 4)", "2026-06-25", "2026-06-28", "Spa-Francorchamps, Belgium"),
   ("Misano (Round 5)", "2026-07-18", "2026-07-19", "Misano, Italy"),
   ("Magny-Cours (Round 6)", "2026-08-01", "2026-08-02", "Magny-Cours, France"),
   ("Nürburgring (Round 7)", "2026-08-29", "2026-08-30", "Nürburg, Germany"),
   ("Zandvoort (Round 8)", "2026-09-19", "2026-09-20", "Zandvoort, Netherlands"),
   ("Barcelona (Round 9)", "2026-10-03", "2026-10-04", "Barcelona, Spain"),
   ("Portimão (Round 10)", "2026-10-17", "2026-10-18", "Portimão, Portugal")]

/-- Embedding of `add_static_f1_2026` (lines 127-167): the all-day records appended. -/
def add_static_f1_2026 : List AllDayArgs :=
  f1_2026.map fun r =>
    ⟨"🟦 F1 – " ++ r.1, dateFromIso r.2.1, dateFromIso r.2.2.1, r.2.2.2,
     "Race weekend dates (session times not included).", "Formula 1"⟩

/-- Embedding of `add_static_wrc_2026` (lines 169-199). -/
def add_static_wrc_2026 : List AllDayArgs :=
  wrc_2026.map fun r =>
    ⟨"🟩 WRC – " ++ r.1, dateFromIso r.2.1, dateFromIso r.2.2.1, r.2.2.2,
     "Rally date range (stage times not included).", "WRC"⟩

/-- Embedding of `add_static_gtwc_europe_2026` (lines 201-227). -/
def add_static_gtwc_europe_2026 : List AllDayArgs :=
  gtwc_2026.map fun r =>
    ⟨"🟥 GTWC Europe – " ++ r.1, dateFromIso r.2.1, dateFromIso r.2.2.1, r.2.2.2,
     "Race weekend dates (session times not included).", "GT World Challenge Europe"⟩

/-! ### The Orchestrator: `build_calendar` (source lines 356-390)

Every event draws a fresh `uuid.uuid4()` and a fresh `dtstamp_utc()`; both
draws are modeled by the supply `gen : Nat → String × String` indexed by
the event's position, and `today` models `date.today()`.  The outcome of
the dynamic UFC pipeline — which performs network I/O — enters as an
`Except` value: `Except.error e` models `add_dynamic_ufc` raising an
exception whose `str` is `e`. -/

/-- Pair each element with its global event index, starting at `i0`. -/
def withIdx {α : Type} (i0 : Nat) : List α → List (Nat × α)
  | [] => []
  | a :: rest => (i0, a) :: withIdx (i0 + 1) rest

/-- All static records, in append order F1, WRC, GTWC. -/
def staticArgs : List AllDayArgs :=
  add_static_f1_2026 ++ add_static_wrc_2026 ++ add_static_gtwc_europe_2026

/-- The serialized static event blocks (lines 359-361). -/
def staticEventBlocks (gen : Nat → String × String) : List String :=
  (withIdx 0 staticArgs).map fun p =>
    vevent_all_day (gen p.1).1 (gen p.1).2 p.2.summary p.2.start_inclusive
      p.2.end_inclusive p.2.location p.2.description p.2.categories

/-- Number of static records (24 F1 + 14 WRC + 10 GTWC). -/
def nStatic : Nat := staticArgs.length

/-- Embedding of `add_dynamic_ufc` (lines 336-349): one timed block per fetched event. -/
def add_dynamic_ufc (gen : Nat → String × String) (evs : List UFCEvent) :
    List String :=
  (withIdx nStatic evs).map fun p =>
    vevent_timed (gen p.1).1 (gen p.1).2 ("🟪 " ++ p.2.name) p.2.start_et 5
      "America/New_York" p.2.location "Auto-updated from ESPN UFC schedule."
      "UFC"

/-- The placeholder block appended by the `except` branch (lines 366-376). -/
def ufcPlaceholder (gen : Nat → String × String) (today : Date) (e : String) :
    String :=
  vevent_all_day (gen nStatic).1 (gen nStatic).2
    "🟪 UFC – (Auto-update temporarily unavailable)" today today ""
    ("UFC fetch failed: " ++ e) "UFC"

/-- The `events` list of `build_calendar` (lines 357-376). -/
def buildEvents (gen : Nat → String × String) (today : Date)
    (ufc : Except String (List UFCEvent)) : List String :=
  staticEventBlocks gen ++
    (match ufc with
     | Except.ok evs => add_dynamic_ufc gen evs
     | Except.error e => [ufcPlaceholder gen today e])

/-- The fixed calendar header (lines 378-385). -/
def calendarHeader : List String :=
  ["BEGIN:VCALENDAR", "VERSION:2.0",
   "PRODID:-//Custom Sports Master Feed//EN", "CALSCALE:GREGORIAN",
   "METHOD:PUBLISH", "X-WR-CALNAME:WRC + GTWC Europe + F1 + UFC (Master Feed)",
   "X-WR-TIMEZONE:America/New_York"]

/-- Embedding of `build_calendar` (lines 356-390): the full document. -/
def build_calendar (gen : Nat → String × String) (today : Date)
    (ufc : Except String (List UFCEvent)) : String :=
  "\n".intercalate
    (calendarHeader ++ buildEvents gen today ufc ++ ["END:VCALENDAR", ""])

/-! ### Concrete pipeline inputs used in boundary checks -/

/-- A reference instant deep in summer time: 2026-06-15 12:00:00 (naive). -/
def nowJune : PyDateTime := ⟨2026, 6, 15, 12, 0, 0, none⟩

/-- A candidate whose Eastern start (2026-06-08 11:59:59) is exactly
7 days + 1 second before `nowJune`. -/
def nodeStale : Node :=
  { name := some "UFC Dropped", date := some "2026-06-08T15:59:59Z" }

/-- A candidate whose Eastern start (2026-06-08 13:00:00) is exactly
6 days 23 hours before `nowJune`. -/
def nodeFresh : Node :=
  { name := some "UFC Kept", date := some "2026-06-08T17:00:00Z" }

/-- A November reference instant: 2025-11-10 12:00:00 (naive). -/
def nowNov : PyDateTime := ⟨2025, 11, 10, 12, 0, 0, none⟩

/-- A candidate whose date text carries month and day but no year. -/
def nodeNoYear : Node :=
  { name := some "UFC 322: Jones vs Aspinall", date := some "02-28T19:00" }

/-- A well-formed candidate used to exhibit the naive start of a
normalized record (Eastern start 2026-06-08 22:00:00). -/
def nodeNaive : Node :=
  { name := some "UFC Naive", date := some "2026-06-09T02:00:00Z" }

/-! ### Association-list facts about the Python-dict model -/

/-- The keys of an association list. -/
def dkeys {K V : Type} (m : List (K × V)) : List K := m.map Prod.fst

/-- Recursive lookup in an association list (proof device). -/
def dlookup {K V : Type} [DecidableEq K] : List (K × V) → K → Option V
  | [], _ => none
  | p :: rest, k => if p.1 = k then some p.2 else dlookup rest k

/-- Two candidates with identical (trimmed title, start instant) but
different incidental text. -/
def dupA : UFCEvent := ⟨"UFC 321", ⟨2026, 6, 20, 19, 0, 0, none⟩, "Las Vegas"⟩

/-- Same identity key as `dupA`, later in the found list. -/
def dupB : UFCEvent :=
  ⟨"UFC 321", ⟨2026, 6, 20, 19, 0, 0, none⟩, "T-Mobile Arena, Las Vegas"⟩

/-! ### Theorems -/

theorem ics_unescape_other (c : Char) (l : List Char) (h : c ≠ '\\') :
    ics_unescape (c :: l) = c :: ics_unescape l := by
  rw [ics_unescape.eq_def]
  split
  · simp_all
  · simp_all
  · simp_all
  · simp_all

theorem replaceChar_append (a : Char) (rep : List Char) (l₁ l₂ : List Char) :
    replaceChar a rep (l₁ ++ l₂) = replaceChar a rep l₁ ++ replaceChar a rep l₂ := by
  induction l₁ with
  | nil => rfl
  | cons c rest ih => simp [replaceChar, ih]

theorem ics_escape_append (l₁ l₂ : List Char) :
    ics_escape (l₁ ++ l₂) = ics_escape l₁ ++ ics_escape l₂ := by
  simp [ics_escape, replaceChar_append]

theorem ics_escape_cons (c : Char) (l : List Char) :
    ics_escape (c :: l) = escChar c ++ ics_escape l := by
  have h : ics_escape (c :: l) = ics_escape [c] ++ ics_escape l := by
    simpa using ics_escape_append [c] l
  rw [h]
  by_cases h1 : c = '\\'
  · subst h1; rfl
  · by_cases h2 : c = '\n'
    · subst h2; rfl
    · by_cases h3 : c = ','
      · subst h3; rfl
      · by_cases h4 : c = ';'
        · subst h4; rfl
        · simp [ics_escape, replaceChar, escChar, h1, h2, h3, h4]

theorem ics_unescape_escape_aux (l : List Char) :
    ics_unescape (ics_escape l) = l := by
  induction l with
  | nil => rfl
  | cons c rest ih =>
    rw [ics_escape_cons]
    by_cases h1 : c = '\\'
    · subst h1; simpa [escChar, ics_unescape] using ih
    · by_cases h2 : c = '\n'
      · subst h2; simpa [escChar, ics_unescape] using ih
      · by_cases h3 : c = ','
        · subst h3; simpa [escChar, ics_unescape] using ih
        · by_cases h4 : c = ';'
          · subst h4; simpa [escChar, ics_unescape] using ih
          · simp [escChar, h1, h2, h3, h4, ics_unescape_other c _ h1, ih]

/-- Claim C6: the escaping function replaces backslash with `\\`, newline with
`\n`, comma with `\,` and semicolon with `\;` (it acts as the per-character
substitution `escChar` on every character), applying the inverse replacements
to the escaped result recovers the original string exactly, and the escaping
is injective. -/
theorem ics_escape_roundtrip :
    (∀ l : List Char, ics_escape l = (l.map escChar).flatten)
    ∧ (∀ l : List Char, ics_unescape (ics_escape l) = l)
    ∧ (∀ l₁ l₂ : List Char, ics_escape l₁ = ics_escape l₂ → l₁ = l₂) := by
  refine ⟨?_, ics_unescape_escape_aux, ?_⟩
  · intro l
    induction l with
    | nil => rfl
    | cons c rest ih => simp [ics_escape_cons, ih]
  · intro l₁ l₂ h
    have h1 := ics_unescape_escape_aux l₁
    have h2 := ics_unescape_escape_aux l₂
    rw [← h1, ← h2, h]

/-- Concrete check for C6: a title containing a comma, a semicolon, an embedded
newline and a backslash is escaped per the rules and round-trips. -/
theorem ics_escape_roundtrip_witness :
    ics_escape ("a,b;c\nd\\e".data) = ("a\\,b\\;c\\nd\\\\e".data)
    ∧ ics_unescape (ics_escape ("a,b;c\nd\\e".data)) = ("a,b;c\nd\\e".data) := by
  exact ⟨by decide, ics_escape_roundtrip.2.1 ("a,b;c\nd\\e".data)⟩

theorem prevDay_nextDay (D : Date) (h : ValidDate D) : prevDay (nextDay D) = D := by
  obtain ⟨y, m, d⟩ := D
  obtain ⟨hm1, hm2, hd1, hd2⟩ := h
  simp only at hm1 hm2 hd1 hd2
  unfold nextDay prevDay
  by_cases hlt : d < daysInMonth y m
  · simp only [hlt, if_true]
    have h1 : 1 < d + 1 := by omega
    simp [h1]
  · have hd : d = daysInMonth y m := by omega
    by_cases hm : m < 12
    · simp only [hlt, if_false, hm, if_true]
      have h1 : ¬ (1 : Nat) < 1 := by omega
      have h2 : 1 < m + 1 := by omega
      simp [h1, h2, hd]
    · have hm12 : m = 12 := by omega
      subst hm12
      simp only [hlt, if_false, hm, if_true]
      have h31 : daysInMonth y 12 = 31 := by simp [daysInMonth]
      simp [prevDay, hd, h31]

/-- Claim C5: for an all-day record with inclusive end date `D`, the emitted
DTEND line carries `D + 1 day` (the exclusive-end convention), and
subtracting one day from that emitted end date recovers `D` exactly. -/
theorem vevent_all_day_end_exclusive (u dtstamp summary : String)
    (S D : Date) (location description categories : String)
    (h : ValidDate D) :
    (vevent_all_day_lines u dtstamp summary S D location description
        categories)[5]? = some ("DTEND;VALUE=DATE:" ++ fmt_date (nextDay D))
    ∧ prevDay (nextDay D) = D := by
  exact ⟨by simp [vevent_all_day_lines], prevDay_nextDay D h⟩

/-- Concrete check for C5 at a month boundary: inclusive end 2026-12-31 is
emitted as DTEND 2027-01-01 and decodes back to 2026-12-31. -/
theorem vevent_all_day_end_exclusive_witness :
    ValidDate ⟨2026, 12, 31⟩
    ∧ ((vevent_all_day_lines "u" "s" "x" ⟨2026, 12, 29⟩ ⟨2026, 12, 31⟩ "" ""
          "")[5]? = some ("DTEND;VALUE=DATE:" ++ fmt_date (nextDay ⟨2026, 12, 31⟩))
        ∧ prevDay (nextDay ⟨2026, 12, 31⟩) = ⟨2026, 12, 31⟩) :=
  ⟨by decide,
   vevent_all_day_end_exclusive "u" "s" "x" ⟨2026, 12, 29⟩ ⟨2026, 12, 31⟩ "" "" ""
     (by decide)⟩

/-- Claim C2 fails on the code: the Emitter does not convert a timed record to
UTC.  The record with start 2026-02-28 19:00 in source timezone
America/New_York (5 hours behind UTC on that date) is emitted with a local
TZID-qualified DTSTART of 19:00 on Feb 28, and no line of the block carries
the UTC instant `DTSTART:20260301T000000Z` predicted by the claim. -/
theorem vevent_timed_not_utc :
    (vevent_timed_lines "u" "s" "UFC 320" ⟨2026, 2, 28, 19, 0, 0, none⟩ 5
        "America/New_York" "" "" "")[4]?
      = some "DTSTART;TZID=America/New_York:20260228T190000"
    ∧ "DTSTART:20260301T000000Z"
        ∉ vevent_timed_lines "u" "s" "UFC 320" ⟨2026, 2, 28, 19, 0, 0, none⟩ 5
            "America/New_York" "" "" "" := by
  constructor
  · rfl
  · decide

/-- Claim C2 (amended): for every timed record, the Emitter emits start and
end as local wall-clock instants qualified with the record's source timezone
through a TZID parameter (end = start + duration hours); it performs no UTC
conversion. -/
theorem vevent_timed_tzid_local (u dtstamp summary : String)
    (start_local : PyDateTime) (duration_hours : Nat)
    (tzid location description categories : String) :
    (vevent_timed_lines u dtstamp summary start_local duration_hours tzid
        location description categories)[4]?
      = some ("DTSTART;TZID=" ++ tzid ++ ":" ++ fmt_dt_local start_local)
    ∧ (vevent_timed_lines u dtstamp summary start_local duration_hours tzid
        location description categories)[5]?
      = some ("DTEND;TZID=" ++ tzid ++ ":"
          ++ fmt_dt_local (addHours start_local duration_hours)) :=
  ⟨by simp [vevent_timed_lines], by simp [vevent_timed_lines]⟩

/-- Claim C1: when the dynamic UFC pipeline fails (modeled by
`Except.error e` for an exception with text `e`), `build_calendar` appends
exactly one synthetic all-day placeholder record after the unchanged static
blocks, the placeholder's DESCRIPTION field carries the failure text, and a
complete calendar document is returned (header, all static blocks, the one
placeholder, footer) instead of the error propagating. -/
theorem build_calendar_isolates_failure (gen : Nat → String × String)
    (today : Date) (e : String) :
    buildEvents gen today (Except.error e)
      = staticEventBlocks gen ++ [ufcPlaceholder gen today e]
    ∧ ("DESCRIPTION:" ++ icsEscapeS ("UFC fetch failed: " ++ e))
        ∈ vevent_all_day_lines (gen nStatic).1 (gen nStatic).2
            "🟪 UFC – (Auto-update temporarily unavailable)" today today ""
            ("UFC fetch failed: " ++ e) "UFC"
    ∧ build_calendar gen today (Except.error e)
      = "\n".intercalate (calendarHeader ++ staticEventBlocks gen
          ++ [ufcPlaceholder gen today e] ++ ["END:VCALENDAR", ""]) := by
  refine ⟨rfl, ?_, ?_⟩
  · have hne : ("UFC fetch failed: " ++ e) ≠ "" := by
      intro h
      have h2 := congrArg String.length h
      simp [String.length_append] at h2
      exact absurd h2.1 (by decide)
    simp [vevent_all_day_lines, hne]
  · simp [build_calendar, buildEvents, List.append_assoc]

/-- Claim C3: a successfully parsed candidate passes the staleness filter
if and only if its start is not more than 7 days before the reference
instant; at the boundary, a candidate 7 days + 1 second old is dropped and
one 6 days 23 hours old is kept. -/
theorem staleness_filter_boundary :
    (∀ (now : PyDateTime) (sysOff : Int) (node : Node) (nm : String)
        (dt : PyDateTime), nodeNameDt sysOff node = some (nm, dt) →
        processNode now sysOff node
          = if secsNaive now - secsNaive dt ≤ 7 * 86400
            then some ⟨nm, dt, nodeLoc node⟩ else none)
    ∧ processNode nowJune 0 nodeStale = none
    ∧ processNode nowJune 0 nodeFresh
        = some ⟨"UFC Kept", ⟨2026, 6, 8, 13, 0, 0, none⟩, ""⟩ := by
  refine ⟨?_, by decide, by decide⟩
  intro now sysOff node nm dt h
  unfold processNode
  rw [h]
  dsimp only
  by_cases hc : secsNaive now - secsNaive dt ≤ 7 * 86400
  · rw [if_neg (show ¬ secsNaive dt < secsNaive now - 7 * 86400 by omega),
      if_pos hc]
  · rw [if_pos (show secsNaive dt < secsNaive now - 7 * 86400 by omega),
      if_neg hc]

/-- Concrete application of C3's filter characterization at `nodeFresh`. -/
theorem staleness_filter_boundary_witness :
    nodeNameDt 0 nodeFresh = some ("UFC Kept", ⟨2026, 6, 8, 13, 0, 0, none⟩)
    ∧ processNode nowJune 0 nodeFresh
        = if secsNaive nowJune - secsNaive ⟨2026, 6, 8, 13, 0, 0, none⟩ ≤ 7 * 86400
          then some ⟨"UFC Kept", ⟨2026, 6, 8, 13, 0, 0, none⟩, nodeLoc nodeFresh⟩
          else none :=
  ⟨by decide,
   staleness_filter_boundary.1 nowJune 0 nodeFresh "UFC Kept"
     ⟨2026, 6, 8, 13, 0, 0, none⟩ (by decide)⟩

/-- Claim C7 fails on the code: there is no year inference.  A candidate
dated with month and day but no year ("02-28T19:00"), read against a
November reference instant, does not yield a record with the next year —
its date text fails ISO parsing and the candidate is dropped entirely. -/
theorem no_year_inference_counterexample :
    parseIso (pyReplaceZ ("02-28T19:00".data)) = none
    ∧ fetch_ufc_events_from_espn nowNov 0 200 [nodeNoYear] = [] :=
  ⟨by decide, by decide⟩

/-- Claim C7 (amended): a candidate whose date text fails ISO parsing — in
particular month-day text without a year — is silently dropped; the code
resolves no year from the reference instant (all kept candidates carry an
explicit year in their ISO date text). -/
theorem unparsable_date_dropped (now : PyDateTime) (sysOff : Int)
    (node : Node) (s : String) (h1 : dtStrOf node = some s)
    (h2 : parseIso (pyReplaceZ s.data) = none) :
    processNode now sysOff node = none := by
  have hdrop : nodeNameDt sysOff node = none := by
    unfold nodeNameDt
    rw [h1]
    cases hn : nameOf node
    · rfl
    · simp [h2]
  simp [processNode, hdrop]

/-- Concrete application of the amended C7 at `nodeNoYear`. -/
theorem unparsable_date_dropped_witness :
    dtStrOf nodeNoYear = some "02-28T19:00"
    ∧ parseIso (pyReplaceZ ("02-28T19:00".data)) = none
    ∧ processNode nowNov 0 nodeNoYear = none :=
  ⟨by decide, by decide,
   unparsable_date_dropped nowNov 0 nodeNoYear "02-28T19:00" (by decide)
     (by decide)⟩

/-- Claim C8 fails on the code: the fetch sends no custom header at all —
in particular no client identity header — so the HTTP library's default
(`python-requests`) identity applies. -/
theorem fetcher_no_identity_header :
    espnScheduleRequest.extraHeaders = []
    ∧ (espnScheduleRequest.extraHeaders.find? fun p => p.1 == "User-Agent")
        = none :=
  ⟨rfl, rfl⟩

/-- Claim C8 (amended): the fetch is a single GET against the fixed schedule
URL with a bounded 30-second timeout and no caller-supplied headers (the
library default client identity is used). -/
theorem fetcher_request_shape :
    espnScheduleRequest.url = "https://www.espn.com/mma/schedule/_/league/ufc"
    ∧ espnScheduleRequest.timeoutSeconds = some 30
    ∧ espnScheduleRequest.extraHeaders = [] :=
  ⟨rfl, rfl, rfl⟩

theorem dictUpdate_mem {K V : Type} [DecidableEq K] (m : List (K × V))
    (k : K) (v : V) (p : K × V) (hp : p ∈ dictUpdate m k v) :
    p = (k, v) ∨ p ∈ m := by
  induction m with
  | nil => simpa [dictUpdate] using hp
  | cons q rest ih =>
    unfold dictUpdate at hp
    by_cases hq : q.1 = k
    · rw [if_pos hq] at hp
      rcases List.mem_cons.1 hp with h | h
      · left; exact h
      · right; exact List.mem_cons_of_mem _ h
    · rw [if_neg hq] at hp
      rcases List.mem_cons.1 hp with h | h
      · right; rw [h]; exact List.mem_cons_self _ _
      · rcases ih h with h2 | h2
        · left; exact h2
        · right; exact List.mem_cons_of_mem _ h2

theorem dkeys_cons {K V : Type} (q : K × V) (rest : List (K × V)) :
    dkeys (q :: rest) = q.1 :: dkeys rest := rfl

theorem dictUpdate_keys {K V : Type} [DecidableEq K] (m : List (K × V))
    (k : K) (v : V) :
    dkeys (dictUpdate m k v)
      = if k ∈ dkeys m then dkeys m else dkeys m ++ [k] := by
  induction m with
  | nil => simp [dictUpdate, dkeys]
  | cons q rest ih =>
    by_cases hq : q.1 = k
    · have hk : k ∈ dkeys (q :: rest) := by
        rw [dkeys_cons, hq]
        exact List.mem_cons_self _ _
      rw [if_pos hk]
      unfold dictUpdate
      rw [if_pos hq, dkeys_cons, dkeys_cons]
      simp [hq]
    · unfold dictUpdate
      rw [if_neg hq, dkeys_cons, ih]
      by_cases hk : k ∈ dkeys rest
      · rw [if_pos hk,
          if_pos (show k ∈ dkeys (q :: rest) by
            rw [dkeys_cons]; exact List.mem_cons_of_mem _ hk),
          dkeys_cons]
      · rw [if_neg hk,
          if_neg (show k ∉ dkeys (q :: rest) by
            rw [dkeys_cons]
            intro hc
            rcases List.mem_cons.1 hc with h | h
            · exact hq h.symm
            · exact hk h),
          dkeys_cons]
        simp

theorem dictUpdate_nodup {K V : Type} [DecidableEq K] (m : List (K × V))
    (k : K) (v : V) (h : (dkeys m).Nodup) :
    (dkeys (dictUpdate m k v)).Nodup := by
  rw [dictUpdate_keys]
  by_cases hk : k ∈ dkeys m
  · rw [if_pos hk]; exact h
  · rw [if_neg hk]
    refine List.Nodup.append h (List.nodup_singleton k) ?_
    intro a hal hak
    rw [List.mem_singleton] at hak
    exact hk (hak ▸ hal)

theorem dictUpdate_dlookup {K V : Type} [DecidableEq K] (m : List (K × V))
    (k : K) (v : V) (q : K) :
    dlookup (dictUpdate m k v) q = if q = k then some v else dlookup m q := by
  induction m with
  | nil =>
    show (if k = q then some v else none) = if q = k then some v else none
    by_cases h : k = q
    · rw [if_pos h, if_pos h.symm]
    · rw [if_neg h, if_neg (fun hh => h hh.symm)]
  | cons p rest ih =>
    by_cases hp : p.1 = k
    · unfold dictUpdate
      rw [if_pos hp]
      show (if k = q then some v else dlookup rest q)
        = if q = k then some v
          else if p.1 = q then some p.2 else dlookup rest q
      by_cases h : k = q
      · rw [if_pos h, if_pos h.symm]
      · rw [if_neg h, if_neg (fun hh => h hh.symm),
          if_neg (show ¬ p.1 = q by rw [hp]; exact h)]
    · unfold dictUpdate
      rw [if_neg hp]
      show (if p.1 = q then some p.2 else dlookup (dictUpdate rest k v) q)
        = if q = k then some v
          else if p.1 = q then some p.2 else dlookup rest q
      by_cases hpq : p.1 = q
      · rw [if_pos hpq, if_neg (fun hh => hp (hpq.trans hh)), if_pos hpq]
      · rw [if_neg hpq, if_neg hpq, ih]

theorem dlookup_of_mem {K V : Type} [DecidableEq K] (m : List (K × V))
    (p : K × V) (hm : (dkeys m).Nodup) (hp : p ∈ m) :
    dlookup m p.1 = some p.2 := by
  induction m with
  | nil => cases hp
  | cons q rest ih =>
    rw [dkeys_cons] at hm
    have hm2 : (dkeys rest).Nodup := (List.nodup_cons.1 hm).2
    have hq1 : q.1 ∉ dkeys rest := (List.nodup_cons.1 hm).1
    rcases List.mem_cons.1 hp with h | h
    · rw [h]
      show (if q.1 = q.1 then some q.2 else dlookup rest q.1) = some q.2
      rw [if_pos rfl]
    · have hq : ¬ q.1 = p.1 := by
        intro hcontra
        apply hq1
        rw [hcontra]
        exact List.mem_map.2 ⟨p, h, rfl⟩
      show (if q.1 = p.1 then some q.2 else dlookup rest p.1) = some p.2
      rw [if_neg hq]
      exact ih hm2 h

theorem mem_of_dlookup {K V : Type} [DecidableEq K] (m : List (K × V))
    (k : K) (v : V) (h : dlookup m k = some v) : (k, v) ∈ m := by
  induction m with
  | nil => cases h
  | cons q rest ih =>
    unfold dlookup at h
    by_cases hq : q.1 = k
    · rw [if_pos hq] at h
      refine List.mem_cons.2 (Or.inl ?_)
      obtain ⟨q1, q2⟩ := q
      simp only at hq
      simp only [Option.some.injEq] at h
      simp [hq, h]
    · rw [if_neg hq] at h
      exact List.mem_cons_of_mem _ (ih h)

theorem getLast?_cons_eq_or {α : Type} (a : α) (l : List α) :
    (a :: l).getLast? = l.getLast?.or (some a) := by
  induction l generalizing a with
  | nil => rfl
  | cons b bs ih =>
    rw [List.getLast?_cons_cons, ih b]
    cases h : bs.getLast? <;> rfl

theorem getLast?_isSome_of_mem {α : Type} (l : List α) (a : α) (h : a ∈ l) :
    ∃ w, l.getLast? = some w := by
  cases l with
  | nil => cases h
  | cons b bs =>
    rw [getLast?_cons_eq_or]
    cases hb : bs.getLast?
    · exact ⟨b, rfl⟩
    · exact ⟨_, rfl⟩

theorem buildDictAux_nodup (found : List UFCEvent) :
    ∀ m : List ((String × PyDateTime) × UFCEvent), (dkeys m).Nodup →
      (dkeys (found.foldl (fun m ev => dictUpdate m (eventKey ev) ev) m)).Nodup := by
  induction found with
  | nil => intro m h; simpa using h
  | cons ev rest ih =>
    intro m h
    rw [List.foldl_cons]
    exact ih _ (dictUpdate_nodup _ _ _ h)

theorem buildDictAux_keyinv (found : List UFCEvent) :
    ∀ m, (∀ p ∈ m, p.1 = eventKey p.2) →
      ∀ p ∈ found.foldl (fun m ev => dictUpdate m (eventKey ev) ev) m,
        p.1 = eventKey p.2 := by
  induction found with
  | nil => intro m h; simpa using h
  | cons ev rest ih =>
    intro m h p hp
    rw [List.foldl_cons] at hp
    refine ih _ ?_ p hp
    intro q hq
    rcases dictUpdate_mem _ _ _ q hq with h1 | h1
    · rw [h1]
    · exact h q h1

theorem buildDictAux_mem (found : List UFCEvent) :
    ∀ m p, p ∈ found.foldl (fun m ev => dictUpdate m (eventKey ev) ev) m →
      p ∈ m ∨ p.2 ∈ found := by
  induction found with
  | nil => intro m p hp; left; simpa using hp
  | cons ev rest ih =>
    intro m p hp
    rw [List.foldl_cons] at hp
    rcases ih _ p hp with h1 | h1
    · rcases dictUpdate_mem _ _ _ p h1 with h2 | h2
      · right; rw [h2]; exact List.mem_cons_self _ _
      · left; exact h2
    · right; exact List.mem_cons_of_mem _ h1

theorem buildDictAux_dlookup (found : List UFCEvent) :
    ∀ m k, dlookup (found.foldl (fun m ev => dictUpdate m (eventKey ev) ev) m) k
      = ((found.filter fun ev => decide (eventKey ev = k)).getLast?).or
          (dlookup m k) := by
  induction found with
  | nil => intro m k; rfl
  | cons ev rest ih =>
    intro m k
    rw [List.foldl_cons, ih]
    by_cases hk : eventKey ev = k
    · rw [List.filter_cons_of_pos (by simpa using hk), getLast?_cons_eq_or,
        dictUpdate_dlookup, if_pos hk.symm]
      cases h : (rest.filter fun ev => decide (eventKey ev = k)).getLast? <;> rfl
    · rw [List.filter_cons_of_neg (by simpa using hk), dictUpdate_dlookup,
        if_neg (fun hh => hk hh.symm)]

theorem buildDict_dlookup (found : List UFCEvent) (k : String × PyDateTime) :
    dlookup (buildDict found) k
      = (found.filter fun ev => decide (eventKey ev = k)).getLast? := by
  unfold buildDict
  rw [buildDictAux_dlookup]
  cases hl : (found.filter fun ev => decide (eventKey ev = k)).getLast? <;> rfl

theorem buildDict_nodup (found : List UFCEvent) :
    (dkeys (buildDict found)).Nodup :=
  buildDictAux_nodup found [] (by simp [dkeys])

theorem buildDict_keyinv (found : List UFCEvent) (p) (hp : p ∈ buildDict found) :
    p.1 = eventKey p.2 :=
  buildDictAux_keyinv found [] (by simp) p hp

theorem buildDict_mem (found : List UFCEvent) (p) (hp : p ∈ buildDict found) :
    p.2 ∈ found := by
  rcases buildDictAux_mem found [] p hp with h | h
  · cases h
  · exact h

/-- Claim C4: the deduplicated, sorted output contains exactly one record
per identity key (trimmed title, start instant) — the output's keys are
pairwise distinct, every key observed in the input is represented, and the
record kept for a key is the last-seen candidate with that key. -/
theorem dedup_one_per_key :
    (∀ found : List UFCEvent, ((dedup_and_sort found).map eventKey).Nodup)
    ∧ (∀ (found : List UFCEvent) (ev : UFCEvent), ev ∈ found →
        ∃ ev2, ev2 ∈ dedup_and_sort found ∧ eventKey ev2 = eventKey ev)
    ∧ (∀ (found : List UFCEvent) (ev2 : UFCEvent),
        ev2 ∈ dedup_and_sort found →
        (found.filter fun x => decide (eventKey x = eventKey ev2)).getLast?
          = some ev2) := by
  refine ⟨?_, ?_, ?_⟩
  · intro found
    have hperm : List.Perm (dedup_and_sort found) ((buildDict found).map Prod.snd) :=
      List.perm_insertionSort erLE _
    have hmapperm := hperm.map eventKey
    have hkeys : ((buildDict found).map Prod.snd).map eventKey
        = (buildDict found).map Prod.fst := by
      rw [List.map_map]
      apply List.map_congr_left
      intro p hp
      exact (buildDict_keyinv found p hp).symm
    have hnodup : ((buildDict found).map Prod.fst).Nodup := buildDict_nodup found
    rw [← hkeys] at hnodup
    exact (hmapperm.nodup_iff).2 hnodup
  · intro found ev hev
    have hf : ev ∈ found.filter (fun x => decide (eventKey x = eventKey ev)) :=
      List.mem_filter.2 ⟨hev, by simp⟩
    obtain ⟨w, hw⟩ := getLast?_isSome_of_mem _ _ hf
    have hlook : dlookup (buildDict found) (eventKey ev) = some w := by
      rw [buildDict_dlookup, hw]
    have hmem : (eventKey ev, w) ∈ buildDict found :=
      mem_of_dlookup _ _ _ hlook
    have hkey : eventKey w = eventKey ev :=
      (buildDict_keyinv found _ hmem).symm
    have hvals : w ∈ (buildDict found).map Prod.snd :=
      List.mem_map.2 ⟨(eventKey ev, w), hmem, rfl⟩
    have hperm : List.Perm (dedup_and_sort found) ((buildDict found).map Prod.snd) :=
      List.perm_insertionSort erLE _
    exact ⟨w, (hperm.mem_iff).2 hvals, hkey⟩
  · intro found ev2 hev2
    have hperm : List.Perm (dedup_and_sort found) ((buildDict found).map Prod.snd) :=
      List.perm_insertionSort erLE _
    have hvals : ev2 ∈ (buildDict found).map Prod.snd :=
      (hperm.mem_iff).1 hev2
    obtain ⟨p, hp, hp2⟩ := List.mem_map.1 hvals
    have hkey : p.1 = eventKey ev2 := by
      rw [← hp2]
      exact buildDict_keyinv found p hp
    have hlook : dlookup (buildDict found) p.1 = some p.2 :=
      dlookup_of_mem _ p (buildDict_nodup found) hp
    rw [hkey, buildDict_dlookup, hp2] at hlook
    exact hlook

/-- Concrete application of C4: of two candidates with the same identity key
and different incidental text, exactly one record is yielded, and it is the
last-seen one. -/
theorem dedup_one_per_key_witness :
    dupB ∈ dedup_and_sort [dupA, dupB]
    ∧ (([dupA, dupB].filter fun x => decide (eventKey x = eventKey dupB)).getLast?
        = some dupB)
    ∧ dedup_and_sort [dupA, dupB] = [dupB] :=
  ⟨by decide, dedup_one_per_key.2.2 [dupA, dupB] dupB (by decide), by decide⟩

theorem toNaiveEastern_tzinfo (sysOff : Int) (dt : PyDateTime) :
    (toNaiveEastern sysOff dt).tzinfo = none := rfl

theorem nodeNameDt_naive (sysOff : Int) (node : Node) (nm : String)
    (dt : PyDateTime) (h : nodeNameDt sysOff node = some (nm, dt)) :
    dt.tzinfo = none := by
  unfold nodeNameDt at h
  split at h
  · split at h
    · split at h
      · simp only [Option.some.injEq, Prod.mk.injEq] at h
        rw [← h.2]
        exact toNaiveEastern_tzinfo _ _
      · cases h
    · cases h
  · cases h

theorem processNode_start_naive (now : PyDateTime) (sysOff : Int)
    (node : Node) (ev : UFCEvent) (h : processNode now sysOff node = some ev) :
    ev.start_et.tzinfo = none := by
  unfold processNode at h
  cases hn : nodeNameDt sysOff node with
  | none => rw [hn] at h; cases h
  | some p =>
    rw [hn] at h
    obtain ⟨nm, dt⟩ := p
    dsimp only at h
    by_cases hc : secsNaive dt < secsNaive now - 7 * 86400
    · rw [if_pos hc] at h; cases h
    · rw [if_neg hc] at h
      have h2 : ev = ⟨nm, dt, nodeLoc node⟩ := (Option.some.inj h).symm
      rw [h2]
      exact nodeNameDt_naive sysOff node nm dt hn

theorem collectFound_mem (now : PyDateTime) (sysOff : Int) (maxE : Nat)
    (nodes : List Node) :
    ∀ (acc : List UFCEvent) (ev : UFCEvent),
      ev ∈ collectFound now sysOff maxE nodes acc →
      ev ∈ acc ∨ ∃ node, node ∈ nodes ∧ processNode now sysOff node = some ev := by
  induction nodes with
  | nil =>
    intro acc ev h
    left
    simpa [collectFound] using h
  | cons node rest ih =>
    intro acc ev h
    unfold collectFound at h
    cases hp : processNode now sysOff node with
    | none =>
      rw [hp] at h
      rcases ih acc ev h with h1 | ⟨n2, hn2, hn3⟩
      · left; exact h1
      · right; exact ⟨n2, List.mem_cons_of_mem _ hn2, hn3⟩
    | some ev0 =>
      rw [hp] at h
      dsimp only at h
      by_cases hl : maxE ≤ (acc ++ [ev0]).length
      · rw [if_pos hl] at h
        rcases List.mem_append.1 h with h1 | h1
        · left; exact h1
        · right
          refine ⟨node, List.mem_cons_self _ _, ?_⟩
          rw [List.mem_singleton] at h1
          rw [hp, h1]
      · rw [if_neg hl] at h
        rcases ih _ ev h with h1 | ⟨n2, hn2, hn3⟩
        · rcases List.mem_append.1 h1 with h2 | h2
          · left; exact h2
          · right
            refine ⟨node, List.mem_cons_self _ _, ?_⟩
            rw [List.mem_singleton] at h2
            rw [hp, h2]
        · right; exact ⟨n2, List.mem_cons_of_mem _ hn2, hn3⟩

theorem fetch_mem_processNode (now : PyDateTime) (sysOff : Int) (maxE : Nat)
    (nodes : List Node) (ev : UFCEvent)
    (h : ev ∈ fetch_ufc_events_from_espn now sysOff maxE nodes) :
    ∃ node, node ∈ nodes ∧ processNode now sysOff node = some ev := by
  unfold fetch_ufc_events_from_espn dedup_and_sort at h
  have hperm := List.perm_insertionSort erLE
    ((buildDict (collectFound now sysOff maxE nodes [])).map Prod.snd)
  have hvals := (hperm.mem_iff).1 h
  obtain ⟨p, hp, hp2⟩ := List.mem_map.1 hvals
  have hfound : p.2 ∈ collectFound now sysOff maxE nodes [] :=
    buildDict_mem _ p hp
  rw [hp2] at hfound
  rcases collectFound_mem now sysOff maxE nodes [] ev hfound with h1 | h1
  · cases h1
  · exact h1

/-- Claim C9 fails on the code: a record leaving the Normalizer has a naive
(timezone-less) start — the pipeline strips the tzinfo with
`replace(tzinfo=None)` and `UFCEvent.start_et` is documented as naive. -/
theorem normalizer_start_naive_refuted :
    fetch_ufc_events_from_espn nowJune 0 200 [nodeNaive]
      = [⟨"UFC Naive", ⟨2026, 6, 8, 22, 0, 0, none⟩, ""⟩]
    ∧ (⟨"UFC Naive", ⟨2026, 6, 8, 22, 0, 0, none⟩, ""⟩ :
        UFCEvent).start_et.tzinfo = none :=
  ⟨by decide, rfl⟩

/-- Claim C9 (amended): every ScheduleRecord leaving the Normalizer has a
naive start — the Eastern wall-clock value with its tzinfo stripped; the
timezone identity is attached only at emission time, through the constant
`TZID=America/New_York` label. -/
theorem normalizer_output_naive (now : PyDateTime) (sysOff : Int)
    (maxE : Nat) (nodes : List Node) (ev : UFCEvent)
    (h : ev ∈ fetch_ufc_events_from_espn now sysOff maxE nodes) :
    ev.start_et.tzinfo = none := by
  obtain ⟨node, _, hp⟩ := fetch_mem_processNode now sysOff maxE nodes ev h
  exact processNode_start_naive now sysOff node ev hp

/-- Concrete application of the amended C9. -/
theorem normalizer_output_naive_witness :
    (⟨"UFC Naive", ⟨2026, 6, 8, 22, 0, 0, none⟩, ""⟩ : UFCEvent)
        ∈ fetch_ufc_events_from_espn nowJune 0 200 [nodeNaive]
    ∧ (⟨"UFC Naive", ⟨2026, 6, 8, 22, 0, 0, none⟩, ""⟩ :
        UFCEvent).start_et.tzinfo = none :=
  ⟨by decide,
   normalizer_output_naive nowJune 0 200 [nodeNaive] _ (by decide)⟩

theorem dictUpdate_length {K V : Type} [DecidableEq K] (m : List (K × V))
    (k : K) (v : V) : (dictUpdate m k v).length ≤ m.length + 1 := by
  induction m with
  | nil => simp [dictUpdate]
  | cons p rest ih =>
    unfold dictUpdate
    by_cases hp : p.1 = k
    · rw [if_pos hp]; simp
    · rw [if_neg hp]
      simp only [List.length_cons]
      omega

theorem buildDictAux_length (found : List UFCEvent) :
    ∀ m, (found.foldl (fun m ev => dictUpdate m (eventKey ev) ev) m).length
      ≤ m.length + found.length := by
  induction found with
  | nil => intro m; simp
  | cons ev rest ih =>
    intro m
    rw [List.foldl_cons]
    have h1 := ih (dictUpdate m (eventKey ev) ev)
    have h2 := dictUpdate_length m (eventKey ev) ev
    simp only [List.length_cons]
    omega

theorem collectFound_length (now : PyDateTime) (sysOff : Int) (maxE : Nat)
    (nodes : List Node) :
    ∀ acc : List UFCEvent, acc.length < maxE →
      (collectFound now sysOff maxE nodes acc).length ≤ maxE := by
  induction nodes with
  | nil =>
    intro acc h
    unfold collectFound
    omega
  | cons node rest ih =>
    intro acc h
    unfold collectFound
    cases hp : processNode now sysOff node with
    | none => exact ih acc h
    | some ev =>
      dsimp only
      have hlen : (acc ++ [ev]).length = acc.length + 1 := by simp
      by_cases hl : maxE ≤ (acc ++ [ev]).length
      · rw [if_pos hl]
        omega
      · rw [if_neg hl]
        refine ih _ ?_
        omega

/-- Claim C10 fails on the code at the boundary `max_events = 0`: the bound
check runs only after an append, so a single parseable candidate still
yields one record, exceeding the bound of zero. -/
theorem fetch_exceeds_zero_max :
    (fetch_ufc_events_from_espn nowJune 0 0 [nodeFresh]).length = 1 := by
  decide

/-- Claim C10 (amended): for `max_events ≥ 1` — in particular the default
200 — the pipeline returns at most `max_events` records: accumulation stops
as soon as the found list reaches the bound, and deduplication and sorting
never lengthen the list. -/
theorem fetch_at_most_max_events (now : PyDateTime) (sysOff : Int)
    (maxE : Nat) (nodes : List Node) (h : 1 ≤ maxE) :
    (fetch_ufc_events_from_espn now sysOff maxE nodes).length ≤ maxE := by
  unfold fetch_ufc_events_from_espn dedup_and_sort
  rw [List.length_insertionSort, List.length_map]
  have h1 := buildDictAux_length (collectFound now sysOff maxE nodes []) []
  have h2 := collectFound_length now sysOff maxE nodes []
    (by simpa using h)
  simp only [List.length_nil] at h1
  unfold buildDict
  omega

/-- Concrete application of the amended C10 at `max_events = 1` with two
parseable candidates. -/
theorem fetch_at_most_max_events_witness :
    1 ≤ 1
    ∧ (fetch_ufc_events_from_espn nowJune 0 1 [nodeFresh, nodeNaive]).length
        ≤ 1 :=
  ⟨by decide,
   fetch_at_most_max_events nowJune 0 1 [nodeFresh, nodeNaive] (by decide)⟩
